import Mathlib

/-!
Shallow embedding of the TIAN-JIANG-DEMO incremental sync engine
(src/main.py, src/utils/bili_video.py, src/utils/models.py).

Network responses are passed in as explicit oracle values: a page listing
is a list of page responses (pages beyond the list come back empty, as the
upstream listing does once exhausted), and the per-identifier fetches are
functions from the identifier to an `Except` result.  Raw JSON dictionaries
are modelled as structures whose fields are `Option`-valued (`none` = the
key is absent or not coercible to the expected type); payloads the code
never inspects (tags, related entries, page sub-dicts, rights) are opaque
tokens.
-/

namespace TianJiang

/-- Opaque payload carried in the `tags` list (the code never inspects it). -/
abbrev Tag := String

/-- Opaque payload carried in the `related_videos` list. -/
abbrev RelatedVideo := Nat

/-- Opaque page sub-dict from the base metadata's `pages` list. -/
abbrev PageDict := Nat

/-- Opaque `rights` sub-dict. -/
abbrev RightsDict := Nat

/-- The raw `stat` engagement sub-object; only `danmaku` is ever read. -/
structure Stat where
  danmaku : Option Int
  deriving Repr, DecidableEq

/-- The raw `owner` sub-object; `mid` and `name` are read by the fallback path. -/
structure Owner where
  mid : Option Int
  name : Option String
  deriving Repr, DecidableEq

/-- Base item metadata returned by `get_info` (a JSON dict; `none` = key absent
or value not coercible). -/
structure BaseVideoInfo where
  bvid : Option String
  title : Option String
  desc : Option String
  pubdate : Option Int
  duration : Option Int
  tname : Option String
  stat : Option Stat
  owner : Option Owner
  pages : Option (List PageDict)
  rights : Option RightsDict
  deriving Repr, DecidableEq

/-- `UploaderInfo` from src/utils/models.py: `uploader_mid` is required,
the other three fields are optional. -/
structure UploaderInfo where
  uploader_mid : Int
  uploader_name : Option String
  uploader_follower : Option Int
  uploader_total_videos : Option Int
  deriving Repr, DecidableEq

/-- `VideoInfo` from src/utils/models.py, the validated persisted record.
`days_since_upload` is a float in the source, modelled as `Rat`. -/
structure VideoInfo where
  bvid : String
  title : String
  desc : Option String
  pubdate : Option Int
  duration : Option Int
  tname : Option String
  stat : Stat
  owner : Owner
  pages : Option (List PageDict)
  rights : Option RightsDict
  tags : List Tag
  related_videos : List RelatedVideo
  danmaku_count : Option Int
  num_pages : Option Nat
  days_since_upload : Option Rat
  uploader_mid : Int
  uploader_name : Option String
  uploader_follower : Option Int
  uploader_total_videos : Option Int
  deriving Repr, DecidableEq

/-- A failure of a per-item network call: `responseCode` models
`ResponseCodeException` (item gone / access denied), `other` any other error. -/
inductive FetchErr where
  | responseCode (msg : String)
  | other (msg : String)
  deriving Repr, DecidableEq

/-- Response shape of `get_related`: either a dict wrapping the list under a
`data` key, or the bare list itself (src/utils/bili_video.py lines 70-74). -/
inductive RelatedResp where
  | wrapped (data : List RelatedVideo)
  | plain (l : List RelatedVideo)
  deriving Repr, DecidableEq

/-- Normalisation of the related-videos response (bili_video.py lines 71-74). -/
def normalizeRelated : RelatedResp → List RelatedVideo
  | .wrapped d => d
  | .plain l => l

/-- The fallback `UploaderInfo` built from the base metadata's embedded owner
(bili_video.py lines 94-99).  `uploader_mid` is a required `int` in the
pydantic model, so a missing owner mid makes the construction raise, which the
outer handler turns into an absent result: modelled as `none`. -/
def fallbackUploader (video_info : BaseVideoInfo) : Option UploaderInfo :=
  match (video_info.owner.getD ⟨none, none⟩).mid with
  | none => none
  | some m => some ⟨m, (video_info.owner.getD ⟨none, none⟩).name, none, none⟩

/-- `fetch_video_info` (src/utils/bili_video.py lines 51-130).  The three
network calls are supplied as oracle results.  Returns `none` exactly where the
source returns `None`: the base fetch raised (outer handlers, lines 126-129),
the fallback `UploaderInfo` construction raised (caught at line 128), or the
`VideoInfo` construction raised (missing `bvid` key at line 103 /
pydantic validation, caught at lines 123-125). -/
def fetch_video_info (now : Int)
    (baseRes : Except FetchErr BaseVideoInfo)
    (tagsRes : Except FetchErr (List Tag))
    (relatedRes : Except FetchErr RelatedResp)
    (uploader_info : Option UploaderInfo) : Option VideoInfo :=
  match baseRes with
  | .error _ => none
  | .ok video_info =>
    let tags : List Tag :=
      match tagsRes with
      | .ok t => t
      | .error _ => []
    let related_videos : List RelatedVideo :=
      match relatedRes with
      | .ok r => normalizeRelated r
      | .error _ => []
    let danmaku_count : Option Int := video_info.stat.bind Stat.danmaku
    let num_pages : Option Nat := some (video_info.pages.getD []).length
    let days_since_upload : Option Rat :=
      video_info.pubdate.map (fun p => ((now - p : Int) : Rat) / 86400)
    match uploader_info.orElse (fun _ => fallbackUploader video_info) with
    | none => none
    | some uploader =>
      match video_info.bvid with
      | none => none
      | some b =>
        some { bvid := b
               title := video_info.title.getD ""
               desc := video_info.desc
               pubdate := video_info.pubdate
               duration := video_info.duration
               tname := video_info.tname
               stat := video_info.stat.getD ⟨none⟩
               owner := video_info.owner.getD ⟨none, none⟩
               pages := video_info.pages
               rights := video_info.rights
               tags := tags
               related_videos := related_videos
               danmaku_count := danmaku_count
               num_pages := num_pages
               days_since_upload := days_since_upload
               uploader_mid := uploader.uploader_mid
               uploader_name := uploader.uploader_name
               uploader_follower := uploader.uploader_follower
               uploader_total_videos := uploader.uploader_total_videos }

/-- Response of `get_user_info` used by `fetch_uploader_info`. -/
structure UserInfoResp where
  name : Option String
  follower : Option Int
  archive_count : Option Int
  deriving Repr, DecidableEq

/-- `fetch_uploader_info` (src/utils/bili_video.py lines 32-48): on success all
four fields are populated; on any failure the known uid with three `none`s. -/
def fetch_uploader_info (uid : Int) (res : Except String UserInfoResp) :
    UploaderInfo :=
  match res with
  | .ok up_info => ⟨uid, up_info.name, up_info.follower, up_info.archive_count⟩
  | .error _ => ⟨uid, none, none, none⟩

/-- One entry of a page's `vlist`; only the optional `bvid` key is read. -/
structure VListItem where
  bvid : Option String
  deriving Repr, DecidableEq

/-- One page fetch result: the `vlist` list, or a raised error. -/
abbrev PageResult := Except String (List VListItem)

/-- `get_all_bvids` (src/utils/bili_video.py lines 11-29).  The oracle is the
list of successive page responses starting at page 1; pages past the end of
the list come back empty, as an exhausted listing does.  Returns the collected
bvids together with the number of page fetches issued; a page fetch error
propagates (aborting the channel). -/
def get_all_bvids : List PageResult → Nat → Except String (List String × Nat)
  | [], _ => .ok ([], 1)
  | r :: rest, page_size =>
    match r with
    | .error e => .error e
    | .ok videos =>
      if videos.isEmpty then .ok ([], 1)
      else
        let ids := videos.filterMap VListItem.bvid
        if videos.length < page_size then .ok (ids, 1)
        else
          match get_all_bvids rest page_size with
          | .error e => .error e
          | .ok (more, n) => .ok (ids ++ more, n + 1)

/-- One element of the persisted JSON array: either the dump of a `VideoInfo`,
or an arbitrary pre-existing dict of which only the presence and value of its
`bvid` key matter (the payload token stands for the rest of the dict). -/
inductive PItem where
  | known (v : VideoInfo)
  | extra (bvid : Option String) (payload : Nat)
  deriving Repr, DecidableEq

/-- `item["bvid"]` when `"bvid" in item`, else absent (src/main.py line 125). -/
def PItem.bvidKey : PItem → Option String
  | .known v => some v.bvid
  | .extra b _ => b

/-- State of the channel's output file before the run. -/
inductive FileState where
  | absent
  | unopenable (err : String)
  | unparsable (payload : Nat)
  | parsed (records : List PItem)
  deriving Repr, DecidableEq

/-- Loading the existing collection (src/main.py lines 117-132).  The
`open` call at line 121 sits outside the try block, so a file that cannot be
opened raises past the loader; a parse failure inside `json.load` is caught
and yields the empty prior state. -/
def loadExisting (fs : FileState) (overwrite : Bool) :
    Except String (List PItem) :=
  match fs, overwrite with
  | .absent, _ => .ok []
  | _, true => .ok []
  | .unopenable e, false => .error e
  | .unparsable _, false => .ok []
  | .parsed records, false => .ok records

/-- The per-channel network oracle: uploader info response, discovery page
responses, wall-clock time, and the three per-identifier fetch results. -/
structure SyncOracle where
  userInfo : Except String UserInfoResp
  pages : List PageResult
  now : Int
  base : String → Except FetchErr BaseVideoInfo
  tags : String → Except FetchErr (List Tag)
  related : String → Except FetchErr RelatedResp

/-- Enrichment of one identifier as driven by the orchestrator
(src/main.py lines 144-146): the uploader snapshot is always supplied. -/
def enrichOf (o : SyncOracle) (u : UploaderInfo) (bvid : String) :
    Option VideoInfo :=
  fetch_video_info o.now (o.base bvid) (o.tags bvid) (o.related bvid) (some u)

/-- The enrichment loop (src/main.py lines 143-148): appends each non-absent
result to the accumulated collection, in order. -/
def enrichLoop (o : SyncOracle) (u : UploaderInfo) (acc : List PItem) :
    List String → List PItem
  | [] => acc
  | bvid :: rest =>
    match enrichOf o u bvid with
    | none => enrichLoop o u acc rest
    | some info => enrichLoop o u (acc ++ [PItem.known info]) rest

/-- Outcome of one channel's sync: the written collection, the reported final
count (src/main.py line 157), and the number of item-enrichment fetches issued
(the length of `new_bvids`). -/
structure SyncResult where
  content : List PItem
  count : Nat
  fetches : Nat
  deriving Repr, DecidableEq

/-- One channel's processing (src/main.py lines 106-157): fetch uploader info,
load the existing collection, discover all bvids (page size 30, the default
used at line 134), partition against the existing id set, enrich the new ids
in discovery order, and write back existing-plus-new.  An error is an uncaught
exception reaching the channel loop boundary; in that case nothing is
written. -/
def processChannel (uid : Int) (o : SyncOracle) (fs : FileState)
    (overwrite : Bool) : Except String SyncResult :=
  let uploader_info := fetch_uploader_info uid o.userInfo
  match loadExisting fs overwrite with
  | .error e => .error e
  | .ok existing_data =>
    let existing_bvids := existing_data.filterMap PItem.bvidKey
    match get_all_bvids o.pages 30 with
    | .error e => .error e
    | .ok (all_bvids, _) =>
      let new_bvids := all_bvids.filter (fun b => !existing_bvids.contains b)
      let all_video_info := enrichLoop o uploader_info existing_data new_bvids
      .ok ⟨all_video_info, all_video_info.length, new_bvids.length⟩

/-- One configured channel: its map entry, output path, and network oracle. -/
structure Channel where
  name : String
  uid : Int
  path : String
  oracle : SyncOracle

/-- The channel loop (src/main.py lines 103-161) acting on the file system,
modelled as a map from path to file state.  A failed channel is logged and
skipped (the `except` at line 158); a successful one has its full collection
written to its output path. -/
def runChannels (overwrite : Bool) (fs : String → FileState) :
    List Channel → (String → FileState)
  | [] => fs
  | c :: rest =>
    match processChannel c.uid c.oracle (fs c.path) overwrite with
    | .error _ => runChannels overwrite fs rest
    | .ok r =>
        runChannels overwrite
          (fun p => if p = c.path then .parsed r.content else fs p) rest

/-- The identifiers the orchestrator treats as new: discovered ids not present
in the loaded collection's id set (src/main.py line 136). -/
def newBvids (existing : List PItem) (allBvids : List String) : List String :=
  allBvids.filter (fun b => !(existing.filterMap PItem.bvidKey).contains b)

/-- The enrichment loop is appending: it produces the accumulator followed by
the non-absent enrichment results in input order. -/
theorem enrichLoop_eq (o : SyncOracle) (u : UploaderInfo) :
    ∀ (bs : List String) (acc : List PItem),
      enrichLoop o u acc bs =
        acc ++ bs.filterMap (fun b => (enrichOf o u b).map PItem.known) := by
  intro bs
  induction bs with
  | nil => intro acc; simp [enrichLoop]
  | cons b rest ih =>
    intro acc
    cases h : enrichOf o u b with
    | none => simp [enrichLoop, h, ih]
    | some v => simp [enrichLoop, h, ih]

/-- Functional characterisation of a successful channel run: the written
collection is the loaded one followed by the non-absent enrichments of the
new ids, the count is its length, and the fetches are the new ids. -/
theorem processChannel_ok_spec (uid : Int) (o : SyncOracle) (fs : FileState)
    (overwrite : Bool) (existing : List PItem) (allBvids : List String) (n : Nat)
    (hload : loadExisting fs overwrite = .ok existing)
    (hdisc : get_all_bvids o.pages 30 = .ok (allBvids, n)) :
    processChannel uid o fs overwrite =
      .ok ⟨existing ++ (newBvids existing allBvids).filterMap
            (fun b => (enrichOf o (fetch_uploader_info uid o.userInfo) b).map
              PItem.known),
          (existing ++ (newBvids existing allBvids).filterMap
            (fun b => (enrichOf o (fetch_uploader_info uid o.userInfo) b).map
              PItem.known)).length,
          (newBvids existing allBvids).length⟩ := by
  simp [processChannel, hload, hdisc, enrichLoop_eq, newBvids]

/-- C3: The collection written by sync equals the loaded existing collection,
in its original order and unmodified, followed by the non-absent enrichment
results of the new identifiers in discovery order, and the reported final
count equals the length of this concatenation. -/
theorem sync_merge_order_count (uid : Int) (o : SyncOracle) (fs : FileState)
    (overwrite : Bool) (existing : List PItem) (allBvids : List String)
    (n : Nat) (r : SyncResult)
    (hload : loadExisting fs overwrite = .ok existing)
    (hdisc : get_all_bvids o.pages 30 = .ok (allBvids, n))
    (hrun : processChannel uid o fs overwrite = .ok r) :
    r.content = existing ++ (newBvids existing allBvids).filterMap
        (fun b => (enrichOf o (fetch_uploader_info uid o.userInfo) b).map
          PItem.known) ∧
    r.count = r.content.length := by
  have h := processChannel_ok_spec uid o fs overwrite existing allBvids n
    hload hdisc
  rw [hrun] at h
  have h2 := Except.ok.inj h
  subst h2
  exact ⟨rfl, rfl⟩

/-- Base metadata with only the bvid populated, as the witness oracle
returns it. -/
def mkBaseW (b : String) : BaseVideoInfo :=
  ⟨some b, none, none, none, none, none, none, none, none, none⟩

/-- The record enrichment produces from `mkBaseW b` under a null uploader
snapshot with uploader id `uid`. -/
def vW (uid : Int) (b : String) : VideoInfo :=
  { bvid := b, title := "", desc := none, pubdate := none, duration := none,
    tname := none, stat := ⟨none⟩, owner := ⟨none, none⟩, pages := none,
    rights := none, tags := [], related_videos := [], danmaku_count := none,
    num_pages := some 0, days_since_upload := none, uploader_mid := uid,
    uploader_name := none, uploader_follower := none,
    uploader_total_videos := none }

/-- A concrete oracle: uploader-info fetch fails, one discovery page with two
items, every per-item fetch succeeds with minimal base metadata. -/
def oW : SyncOracle :=
  { userInfo := .error "down"
    pages := [.ok [⟨some "a"⟩, ⟨some "b"⟩]]
    now := 0
    base := fun b => .ok (mkBaseW b)
    tags := fun _ => .ok []
    related := fun _ => .ok (.plain []) }

theorem sync_merge_order_count_witness :
    (⟨[PItem.known (vW 7 "a"), PItem.known (vW 7 "b")], 2, 2⟩ :
        SyncResult).content =
      [] ++ (newBvids [] ["a", "b"]).filterMap
        (fun b => (enrichOf oW (fetch_uploader_info 7 oW.userInfo) b).map
          PItem.known) ∧
    (⟨[PItem.known (vW 7 "a"), PItem.known (vW 7 "b")], 2, 2⟩ :
        SyncResult).count =
      (⟨[PItem.known (vW 7 "a"), PItem.known (vW 7 "b")], 2, 2⟩ :
        SyncResult).content.length :=
  sync_merge_order_count 7 oW .absent false [] ["a", "b"] 1
    ⟨[PItem.known (vW 7 "a"), PItem.known (vW 7 "b")], 2, 2⟩ rfl rfl rfl

/-- One step of the discovery loop on a full page: the page's ids are
collected, the loop continues with the remaining pages, and one more fetch is
counted. -/
theorem get_all_bvids_cons_full (p : List VListItem) (rest : List PageResult)
    (page_size : Nat) (hne : p.isEmpty = false)
    (hge : ¬ p.length < page_size) :
    get_all_bvids (Except.ok p :: rest) page_size =
      match get_all_bvids rest page_size with
      | .error e => .error e
      | .ok (more, n) =>
          .ok (p.filterMap VListItem.bvid ++ more, n + 1) := by
  simp [get_all_bvids, hne, hge]

/-- C4: Discovery walks pages from page 1, stops at an empty page or a page
shorter than `page_size`, and returns the concatenation of the pages'
identifiers in page order, having fetched each listed page exactly once. -/
theorem pagination_termination (pages : List (List VListItem))
    (page_size : Nat)
    (hne : pages ≠ [])
    (hfull : ∀ p ∈ pages.dropLast, p.length = page_size)
    (hlast : ∀ p ∈ pages.getLast?.toList, p.length < page_size) :
    get_all_bvids (pages.map Except.ok) page_size =
      .ok (pages.flatMap (fun p => p.filterMap VListItem.bvid),
           pages.length) := by
  induction pages with
  | nil => exact absurd rfl hne
  | cons p rest ih =>
    cases rest with
    | nil =>
      have hp : p.length < page_size := by
        have := hlast p
        simp at this
        exact this
      by_cases hemp : p = []
      · subst hemp
        simp [get_all_bvids]
      · have : p.isEmpty = false := by
          simp [List.isEmpty_iff, hemp]
        simp [get_all_bvids, this, hp]
    | cons q rest2 =>
      have hlen : p.length = page_size := by
        apply hfull
        simp [List.dropLast_cons₂]
      have hpos : 0 < page_size := by
        rcases Nat.eq_zero_or_pos page_size with h0 | h0
        · exfalso
          have := hlast ((q :: rest2).getLast (by simp))
          simp [List.getLast?_cons_cons, List.getLast?_eq_getLast] at this
          omega
        · exact h0
      have hpnil : p ≠ [] := by
        intro h
        rw [h] at hlen
        simp at hlen
        omega
      have hpne : p.isEmpty = false := by
        simp [List.isEmpty_iff, hpnil]
      have hrec := ih (by simp)
        (fun p2 hp2 => hfull p2 (by
          simp [List.dropLast_cons₂] at hp2 ⊢
          exact Or.inr hp2))
        (fun p2 hp2 => hlast p2 (by
          simp [List.getLast?_cons_cons] at hp2 ⊢
          exact hp2))
      have hnotlt : ¬ p.length < page_size := by omega
      rw [List.map_cons, get_all_bvids_cons_full p _ page_size hpne hnotlt,
        hrec]
      simp [List.flatMap_cons]

theorem pagination_termination_witness :
    get_all_bvids
        (([List.replicate 30 ⟨some "x"⟩, List.replicate 30 ⟨some "y"⟩,
           List.replicate 12 ⟨some "z"⟩] :
          List (List VListItem)).map Except.ok) 30 =
      .ok (([List.replicate 30 ⟨some "x"⟩, List.replicate 30 ⟨some "y"⟩,
             List.replicate 12 (⟨some "z"⟩ : VListItem)]).flatMap
              (fun p => p.filterMap VListItem.bvid),
           3) ∧
    (([List.replicate 30 ⟨some "x"⟩, List.replicate 30 ⟨some "y"⟩,
       List.replicate 12 (⟨some "z"⟩ : VListItem)]).flatMap
        (fun p => p.filterMap VListItem.bvid)).length = 72 :=
  ⟨pagination_termination
      [List.replicate 30 ⟨some "x"⟩, List.replicate 30 ⟨some "y"⟩,
       List.replicate 12 ⟨some "z"⟩] 30
      (by decide) (by decide) (by decide),
   by decide⟩

/-- C6: Enrichment returns absent if and only if the base metadata fetch
failed (for any reason) or the assembled record fails validation (the base
metadata has no coercible `bvid`); tags and related-items failures never
cause an absent result. -/
theorem enrich_absent_iff (now : Int)
    (baseRes : Except FetchErr BaseVideoInfo)
    (tagsRes : Except FetchErr (List Tag))
    (relatedRes : Except FetchErr RelatedResp) (u : UploaderInfo) :
    fetch_video_info now baseRes tagsRes relatedRes (some u) = none ↔
      (∃ e, baseRes = .error e) ∨
      (∃ info, baseRes = .ok info ∧ info.bvid = none) := by
  cases baseRes with
  | error e => simp [fetch_video_info]
  | ok info =>
    cases hb : info.bvid with
    | none => simp [fetch_video_info, Option.orElse, hb]
    | some s => simp [fetch_video_info, Option.orElse, hb]

/-- C7: Within enrichment, a tags fetch failure substitutes the empty list
while leaving every other field as a successful run would produce it, a
related-items fetch failure likewise substitutes the empty list, and the item
is still produced. -/
theorem facet_isolation (now : Int) (info : BaseVideoInfo) (s : String)
    (e e2 : FetchErr) (t : List Tag)
    (tagsRes : Except FetchErr (List Tag))
    (relatedRes : Except FetchErr RelatedResp) (u : UploaderInfo)
    (hb : info.bvid = some s) :
    fetch_video_info now (.ok info) (.error e) relatedRes (some u) =
      (fetch_video_info now (.ok info) (.ok t) relatedRes (some u)).map
        (fun v => { v with tags := [] }) ∧
    fetch_video_info now (.ok info) tagsRes (.error e2) (some u) =
      fetch_video_info now (.ok info) tagsRes (.ok (.plain [])) (some u) ∧
    ∃ v, fetch_video_info now (.ok info) (.error e) relatedRes (some u)
        = some v ∧ v.tags = [] := by
  refine ⟨?_, ?_, ?_⟩ <;>
    simp [fetch_video_info, hb, Option.orElse, normalizeRelated]

theorem facet_isolation_witness :
    (fetch_video_info 0 (.ok (mkBaseW "a")) (.error (.other "tag down"))
        (.ok (.plain [])) (some ⟨7, none, none, none⟩) =
      (fetch_video_info 0 (.ok (mkBaseW "a")) (.ok ["t1"])
          (.ok (.plain [])) (some ⟨7, none, none, none⟩)).map
        (fun v => { v with tags := [] })) ∧
    (fetch_video_info 0 (.ok (mkBaseW "a")) (.ok [])
        (.error (.other "related down")) (some ⟨7, none, none, none⟩) =
      fetch_video_info 0 (.ok (mkBaseW "a")) (.ok [])
        (.ok (.plain [])) (some ⟨7, none, none, none⟩)) ∧
    ∃ v, fetch_video_info 0 (.ok (mkBaseW "a")) (.error (.other "tag down"))
        (.ok (.plain [])) (some ⟨7, none, none, none⟩) = some v ∧
      v.tags = [] :=
  facet_isolation 0 (mkBaseW "a") "a" (.other "tag down")
    (.other "related down") ["t1"] (.ok []) (.ok (.plain []))
    ⟨7, none, none, none⟩ rfl

/-- C10: A base record lacking a title still yields a persisted record, with
title defaulted to the empty string before validation; a missing title never
drops the item. -/
theorem missing_title_default (now : Int) (info : BaseVideoInfo) (s : String)
    (tagsRes : Except FetchErr (List Tag))
    (relatedRes : Except FetchErr RelatedResp) (u : UploaderInfo)
    (hb : info.bvid = some s) (ht : info.title = none) :
    ∃ v, fetch_video_info now (.ok info) tagsRes relatedRes (some u) = some v
        ∧ v.title = "" := by
  cases tagsRes <;> cases relatedRes <;>
    simp [fetch_video_info, hb, ht, Option.orElse]

theorem missing_title_default_witness :
    ∃ v, fetch_video_info 0 (.ok (mkBaseW "a")) (.ok [])
        (.ok (.plain [])) (some ⟨7, none, none, none⟩) = some v ∧
      v.title = "" :=
  missing_title_default 0 (mkBaseW "a") "a" (.ok []) (.ok (.plain []))
    ⟨7, none, none, none⟩ rfl rfl

/-- A produced record copies the uploader snapshot's fields verbatim. -/
theorem fetch_video_info_uploader_fields (now : Int)
    (baseRes : Except FetchErr BaseVideoInfo)
    (tagsRes : Except FetchErr (List Tag))
    (relatedRes : Except FetchErr RelatedResp) (u : UploaderInfo)
    (v : VideoInfo)
    (h : fetch_video_info now baseRes tagsRes relatedRes (some u) = some v) :
    v.uploader_mid = u.uploader_mid ∧
    v.uploader_follower = u.uploader_follower ∧
    v.uploader_total_videos = u.uploader_total_videos := by
  cases baseRes with
  | error e => simp [fetch_video_info] at h
  | ok info =>
    cases hb : info.bvid with
    | none => simp [fetch_video_info, Option.orElse, hb] at h
    | some s =>
      simp [fetch_video_info, Option.orElse, hb] at h
      subst h
      exact ⟨rfl, rfl, rfl⟩

/-- C8: If the uploader-info fetch fails, the run still proceeds through
discovery and enrichment with an `UploaderInfo` holding the known channel id
and three nulls, and every newly produced record carries that channel id as
`uploader_mid` with null follower and total-count fields. -/
theorem uploader_failure_isolation (uid : Int) (o : SyncOracle)
    (fs : FileState) (err : String) (existing : List PItem)
    (allBvids : List String) (n : Nat)
    (hu : o.userInfo = .error err)
    (hload : loadExisting fs false = .ok existing)
    (hdisc : get_all_bvids o.pages 30 = .ok (allBvids, n)) :
    fetch_uploader_info uid o.userInfo = ⟨uid, none, none, none⟩ ∧
    processChannel uid o fs false =
      .ok ⟨existing ++ (newBvids existing allBvids).filterMap
            (fun b => (enrichOf o ⟨uid, none, none, none⟩ b).map PItem.known),
          (existing ++ (newBvids existing allBvids).filterMap
            (fun b => (enrichOf o ⟨uid, none, none, none⟩ b).map
              PItem.known)).length,
          (newBvids existing allBvids).length⟩ ∧
    ∀ v, PItem.known v ∈ (newBvids existing allBvids).filterMap
          (fun b => (enrichOf o ⟨uid, none, none, none⟩ b).map PItem.known) →
      v.uploader_mid = uid ∧ v.uploader_follower = none ∧
        v.uploader_total_videos = none := by
  have hup : fetch_uploader_info uid o.userInfo = ⟨uid, none, none, none⟩ := by
    rw [hu]
    rfl
  refine ⟨hup, ?_, ?_⟩
  · have h := processChannel_ok_spec uid o fs false existing allBvids n
      hload hdisc
    rw [hup] at h
    exact h
  · intro v hv
    rw [List.mem_filterMap] at hv
    obtain ⟨b, _, hbv⟩ := hv
    cases he : enrichOf o ⟨uid, none, none, none⟩ b with
    | none => rw [he] at hbv; simp at hbv
    | some v2 =>
      rw [he] at hbv
      simp at hbv
      rw [hbv] at he
      exact fetch_video_info_uploader_fields o.now (o.base b) (o.tags b)
        (o.related b) ⟨uid, none, none, none⟩ v he

theorem uploader_failure_isolation_witness :
    fetch_uploader_info 7 oW.userInfo = ⟨7, none, none, none⟩ ∧
    processChannel 7 oW .absent false =
      .ok ⟨[] ++ (newBvids [] ["a", "b"]).filterMap
            (fun b => (enrichOf oW ⟨7, none, none, none⟩ b).map PItem.known),
          ([] ++ (newBvids [] ["a", "b"]).filterMap
            (fun b => (enrichOf oW ⟨7, none, none, none⟩ b).map
              PItem.known)).length,
          (newBvids [] ["a", "b"]).length⟩ ∧
    ∀ v, PItem.known v ∈ (newBvids [] ["a", "b"]).filterMap
          (fun b => (enrichOf oW ⟨7, none, none, none⟩ b).map PItem.known) →
      v.uploader_mid = 7 ∧ v.uploader_follower = none ∧
        v.uploader_total_videos = none :=
  uploader_failure_isolation 7 oW .absent "down" [] ["a", "b"] 1 rfl rfl rfl

/-- Paths no channel of the list writes to keep their previous contents. -/
theorem runChannels_untouched (overwrite : Bool) (p : String) :
    ∀ (cs : List Channel) (fs : String → FileState),
      (∀ c ∈ cs, c.path ≠ p) → runChannels overwrite fs cs p = fs p := by
  intro cs
  induction cs with
  | nil => intro fs _; rfl
  | cons c rest ih =>
    intro fs h
    have hc : c.path ≠ p := h c (by simp)
    have hrest : ∀ c2 ∈ rest, c2.path ≠ p := fun c2 h2 => h c2 (by simp [h2])
    cases hres : processChannel c.uid c.oracle (fs c.path) overwrite with
    | error e => simp only [runChannels, hres]; exact ih _ hrest
    | ok r =>
      simp only [runChannels, hres]
      rw [ih _ hrest]
      simp [Ne.symm hc]

/-- C5: A failure while processing a channel is caught at the channel loop
boundary: the loop continues with the remaining channels exactly as if the
failed channel were not there, and the failed channel's output path keeps its
previous contents (provided no later channel writes to the same path). -/
theorem channel_failure_isolation (fs : String → FileState) (c : Channel)
    (rest : List Channel) (e : String)
    (hfail : processChannel c.uid c.oracle (fs c.path) false = .error e)
    (hpath : ∀ c2 ∈ rest, c2.path ≠ c.path) :
    runChannels false fs (c :: rest) = runChannels false fs rest ∧
    runChannels false fs (c :: rest) c.path = fs c.path := by
  have h1 : runChannels false fs (c :: rest) = runChannels false fs rest := by
    simp only [runChannels, hfail]
  refine ⟨h1, ?_⟩
  rw [h1]
  exact runChannels_untouched false c.path rest fs hpath

/-- Oracle whose first discovery page fetch raises. -/
def oFailDisc : SyncOracle :=
  { userInfo := .ok ⟨some "up", some 5, some 9⟩
    pages := [.error "network error"]
    now := 0
    base := fun b => .ok (mkBaseW b)
    tags := fun _ => .ok []
    related := fun _ => .ok (.plain []) }

/-- A channel whose discovery fails, writing to path `out.json`. -/
def cFail : Channel := ⟨"tianjiang", 21143599, "out.json", oFailDisc⟩

theorem channel_failure_isolation_witness :
    runChannels false (fun _ => .parsed [PItem.extra (some "old") 0])
        [cFail] =
      runChannels false (fun _ => .parsed [PItem.extra (some "old") 0]) [] ∧
    runChannels false (fun _ => .parsed [PItem.extra (some "old") 0])
        [cFail] cFail.path =
      (fun _ => FileState.parsed [PItem.extra (some "old") 0]) cFail.path :=
  channel_failure_isolation (fun _ => .parsed [PItem.extra (some "old") 0])
    cFail [] "network error" rfl (by simp)

/-- Oracle with one single-item discovery page and all per-item fetches
succeeding. -/
def oC9 : SyncOracle :=
  { userInfo := .ok ⟨some "up", some 5, some 9⟩
    pages := [.ok [⟨some "a"⟩]]
    now := 0
    base := fun b => .ok (mkBaseW b)
    tags := fun _ => .ok []
    related := fun _ => .ok (.plain []) }

/-- C9 counterexample: the `open` call at src/main.py line 121 sits outside
the try block, so an existing file that cannot be opened does not yield an
empty prior state — the channel fails instead of proceeding. -/
theorem corrupt_file_counterexample :
    processChannel 3 oC9 (.unopenable "permission denied") false =
      .error "permission denied" := rfl

/-- C9 (amended): an existing file that opens but whose contents fail to
parse is treated as an empty prior state, the run proceeds, and every
discovered identifier is fetched as new. -/
theorem corrupt_parse_as_empty (uid : Int) (o : SyncOracle) (payload : Nat)
    (allBvids : List String) (n : Nat)
    (hdisc : get_all_bvids o.pages 30 = .ok (allBvids, n)) :
    processChannel uid o (.unparsable payload) false =
      .ok ⟨allBvids.filterMap
            (fun b => (enrichOf o (fetch_uploader_info uid o.userInfo) b).map
              PItem.known),
          (allBvids.filterMap
            (fun b => (enrichOf o (fetch_uploader_info uid o.userInfo) b).map
              PItem.known)).length,
          allBvids.length⟩ := by
  have hnew : newBvids [] allBvids = allBvids := by
    simp [newBvids]
  have h := processChannel_ok_spec uid o (.unparsable payload) false []
    allBvids n rfl hdisc
  rw [hnew] at h
  simpa using h

theorem corrupt_parse_as_empty_witness :
    processChannel 7 oW (.unparsable 0) false =
      .ok ⟨(["a", "b"] : List String).filterMap
            (fun b => (enrichOf oW (fetch_uploader_info 7 oW.userInfo) b).map
              PItem.known),
          ((["a", "b"] : List String).filterMap
            (fun b => (enrichOf oW (fetch_uploader_info 7 oW.userInfo) b).map
              PItem.known)).length,
          (["a", "b"] : List String).length⟩ :=
  corrupt_parse_as_empty 7 oW 0 ["a", "b"] 1 rfl

/-- Oracle for which the single discovered item's base fetch always fails
with the not-found response code. -/
def oGone : SyncOracle :=
  { userInfo := .ok ⟨some "up", some 5, some 9⟩
    pages := [.ok [⟨some "a"⟩]]
    now := 0
    base := fun _ => .error (.responseCode "-404")
    tags := fun _ => .ok []
    related := fun _ => .ok (.plain [])    }

/-- C2 counterexample: when the first run drops its only discovered item (the
base fetch fails), the item is absent from the written collection, so a second
run over the same discovery re-issues one enrichment fetch instead of zero,
even though the loaded state is exactly the first run's output. -/
theorem sync_idempotent_counterexample :
    processChannel 3 oGone .absent false = .ok ⟨[], 0, 1⟩ ∧
    processChannel 3 oGone (.parsed []) false = .ok ⟨[], 0, 1⟩ :=
  ⟨rfl, rfl⟩

/-- C2 (amended): if additionally every discovered identifier is present in
the first run's written collection (as happens when no enrichment returned
absent), the second run writes the identical collection and issues zero
item-enrichment fetches. -/
theorem sync_idempotent_amended (uid : Int) (o : SyncOracle) (fs : FileState)
    (existing : List PItem) (allBvids : List String) (n : Nat)
    (r1 : SyncResult)
    (hload : loadExisting fs false = .ok existing)
    (hdisc : get_all_bvids o.pages 30 = .ok (allBvids, n))
    (hrun1 : processChannel uid o fs false = .ok r1)
    (hall : ∀ b ∈ allBvids, b ∈ r1.content.filterMap PItem.bvidKey) :
    processChannel uid o (.parsed r1.content) false =
      .ok ⟨r1.content, r1.content.length, 0⟩ := by
  have hnew : newBvids r1.content allBvids = [] := by
    unfold newBvids
    rw [List.filter_eq_nil_iff]
    intro b hb
    simp [List.elem_iff, hall b hb]
  have h := processChannel_ok_spec uid o (.parsed r1.content) false
    r1.content allBvids n rfl hdisc
  rw [hnew] at h
  simpa using h

theorem sync_idempotent_amended_witness :
    processChannel 7 oW
        (.parsed [PItem.known (vW 7 "a"), PItem.known (vW 7 "b")]) false =
      .ok ⟨[PItem.known (vW 7 "a"), PItem.known (vW 7 "b")], 2, 0⟩ :=
  sync_idempotent_amended 7 oW .absent [] ["a", "b"] 1
    ⟨[PItem.known (vW 7 "a"), PItem.known (vW 7 "b")], 2, 2⟩ rfl rfl rfl
    (by decide)

/-- A produced record's identifier comes from the base metadata the base
fetch returned. -/
theorem fetch_video_info_bvid (now : Int)
    (baseRes : Except FetchErr BaseVideoInfo)
    (tagsRes : Except FetchErr (List Tag))
    (relatedRes : Except FetchErr RelatedResp)
    (uploader_info : Option UploaderInfo) (v : VideoInfo)
    (h : fetch_video_info now baseRes tagsRes relatedRes uploader_info =
      some v) :
    ∃ info, baseRes = .ok info ∧ info.bvid = some v.bvid := by
  cases baseRes with
  | error e => simp [fetch_video_info] at h
  | ok info =>
    cases hu : uploader_info.orElse (fun _ => fallbackUploader info) with
    | none => simp [fetch_video_info, hu] at h
    | some up =>
      cases hb : info.bvid with
      | none => simp [fetch_video_info, hu, hb] at h
      | some s =>
        refine ⟨info, rfl, ?_⟩
        simp [fetch_video_info, hu, hb] at h
        subst h
        exact hb

/-- If the base oracle reports the requested identifier, the ids of the
records that enrichment produces form a sublist of the input id list. -/
theorem enrich_keys_sublist (o : SyncOracle) (u : UploaderInfo)
    (hfaithful : ∀ b info, o.base b = .ok info →
      ∀ s, info.bvid = some s → s = b) :
    ∀ bs : List String,
      ((bs.filterMap (fun b => (enrichOf o u b).map PItem.known)).filterMap
        PItem.bvidKey).Sublist bs := by
  intro bs
  induction bs with
  | nil => simp
  | cons b rest ih =>
    cases he : enrichOf o u b with
    | none =>
      simp only [List.filterMap_cons, he, Option.map_none']
      exact ih.cons b
    | some v =>
      obtain ⟨info, hinfo, hbv⟩ := fetch_video_info_bvid o.now (o.base b)
        (o.tags b) (o.related b) (some u) v he
      have hb : v.bvid = b := hfaithful b info hinfo v.bvid hbv
      simp only [List.filterMap_cons, he, Option.map_some', PItem.bvidKey,
        hb]
      exact ih.cons₂ b

/-- Oracle whose single discovery page lists the same identifier twice. -/
def oDup : SyncOracle := { oW with pages := [.ok [⟨some "a"⟩, ⟨some "a"⟩]] }

/-- C1 counterexample: an upstream listing repeating the same identifier is
not deduplicated before the Merger — with an empty (hence unique) loaded
collection, the written collection holds two records with id `a`. -/
theorem merge_dup_counterexample :
    processChannel 3 oDup .absent false =
      .ok ⟨[PItem.known (vW 3 "a"), PItem.known (vW 3 "a")], 2, 2⟩ ∧
    decide (([PItem.known (vW 3 "a"),
        PItem.known (vW 3 "a")].filterMap PItem.bvidKey).Nodup) = false :=
  ⟨rfl, rfl⟩

/-- C1 (amended): when the discovered identifier list itself has no
duplicates and the base fetch reports the requested identifier, the written
collection's identifiers are duplicate-free whenever the loaded ones were;
duplicates inside one discovery listing are not filtered. -/
theorem merge_unique_amended (uid : Int) (o : SyncOracle) (fs : FileState)
    (overwrite : Bool) (existing : List PItem) (allBvids : List String)
    (n : Nat) (r : SyncResult)
    (hload : loadExisting fs overwrite = .ok existing)
    (hdisc : get_all_bvids o.pages 30 = .ok (allBvids, n))
    (hrun : processChannel uid o fs overwrite = .ok r)
    (hnodup : allBvids.Nodup)
    (hex : (existing.filterMap PItem.bvidKey).Nodup)
    (hfaithful : ∀ b info, o.base b = .ok info →
      ∀ s, info.bvid = some s → s = b) :
    (r.content.filterMap PItem.bvidKey).Nodup := by
  have hspec := processChannel_ok_spec uid o fs overwrite existing allBvids n
    hload hdisc
  rw [hrun] at hspec
  have hr := Except.ok.inj hspec
  subst hr
  rw [List.filterMap_append]
  have hsub := enrich_keys_sublist o (fetch_uploader_info uid o.userInfo)
    hfaithful (newBvids existing allBvids)
  have hnodup_new : (newBvids existing allBvids).Nodup :=
    hnodup.filter _
  have hnew := hnodup_new.sublist hsub
  apply List.Nodup.append hex hnew
  intro a ha hmem_new
  have hmem : a ∈ newBvids existing allBvids := hsub.subset hmem_new
  simp only [newBvids, List.mem_filter] at hmem
  have hc : (existing.filterMap PItem.bvidKey).contains a = true :=
    List.elem_iff.mpr ha
  rw [hc] at hmem
  simp at hmem

theorem merge_unique_amended_witness :
    ((⟨[PItem.extra (some "c") 0, PItem.known (vW 7 "a"),
        PItem.known (vW 7 "b")], 3, 2⟩ : SyncResult).content.filterMap
      PItem.bvidKey).Nodup :=
  merge_unique_amended 7 oW (.parsed [PItem.extra (some "c") 0]) false
    [PItem.extra (some "c") 0] ["a", "b"] 1
    ⟨[PItem.extra (some "c") 0, PItem.known (vW 7 "a"),
      PItem.known (vW 7 "b")], 3, 2⟩
    rfl rfl rfl (by decide) (by decide)
    (fun b info h s hs => by
      have h2 : mkBaseW b = info := Except.ok.inj h
      rw [← h2] at hs
      exact (Option.some.inj hs).symm)

end TianJiang
